import Mathlib

/-!
Verification development for the TCP string-search server.

The Python sources under `src/server/` and `src/client.py` are shallowly
embedded here.  Python strings are modelled as `List Char` (`PyStr`), raw
socket/file bytes as `List Nat`, and the filesystem as an `IOResult` value
describing the outcome of opening the dataset file.  Python exceptions are
modelled by the `PyExc` type together with `Except`; a `try/except` block
becomes a `match` on the `Except` value that resolves the caught
constructors.  Loops from the sources (the C `bisect_left` loop, the UTF-8
decoding loop) are embedded with an explicit fuel argument that is at least
the number of remaining iterations, so that every definition evaluates by
kernel reduction.
-/

/-- Python strings, modelled as their list of code points. -/
abbrev PyStr := List Char

/-- Universal-newline translation performed by Python text mode: each
`\r\n` pair and each lone `\r` becomes a single `\n`. -/
def universalNewlines : List Char → List Char
  | [] => []
  | '\r' :: '\n' :: r => '\n' :: universalNewlines r
  | '\r' :: r => '\n' :: universalNewlines r
  | c :: r => c :: universalNewlines r

/-- Splitting the translated stream at newline characters; the accumulator
holds the current (reversed) partial line. -/
def pyLinesAux : List Char → List Char → List PyStr
  | cur, [] => if cur.isEmpty then [] else [cur.reverse]
  | cur, c :: rest =>
    if c = '\n' then cur.reverse :: pyLinesAux [] rest
    else pyLinesAux (c :: cur) rest

/-- Iterating a Python text file yields its lines; each yielded line is then
`rstrip`-ped of its trailing newline (`[line.rstrip("\n") for line in f]`).
An empty file yields no lines; a final line without a trailing terminator is
still yielded. -/
def pyLines (c : PyStr) : List PyStr := pyLinesAux [] (universalNewlines c)

/-- Outcome of opening and reading the dataset file. -/
inductive IOResult where
  | ok (content : PyStr)
  | missing
  | denied
  | ioFail
deriving DecidableEq

/-- The Python exceptions that the embedded code can raise or catch. -/
inductive PyExc where
  | fileNotFoundError
  | permissionError
  | osError
  | sslError
  | runtimeError
  | typeError
  | indexError
  | valueError
deriving DecidableEq

/-- True on every `IOResult` that models a failed dataset read. -/
def IOResult.isFailure : IOResult → Bool
  | .ok _ => false
  | _ => true

/-- Embedding of `search_algorithms.load_lines_list`: read the dataset into a
list of lines, re-raising `FileNotFoundError`, `PermissionError` and
`OSError` after logging. -/
def load_lines_list (disk : IOResult) : Except PyExc (List PyStr) :=
  match disk with
  | .ok c => .ok (pyLines c)
  | .missing => .error .fileNotFoundError
  | .denied => .error .permissionError
  | .ioFail => .error .osError

/-- Embedding of `search_algorithms.load_lines_set`: like `load_lines_list`
but building a set.  The Python set is modelled by its extension with
duplicates collapsed; membership agrees with list membership. -/
def load_lines_set (disk : IOResult) : Except PyExc (List PyStr) :=
  match disk with
  | .ok c => .ok (pyLines c).dedup
  | .missing => .error .fileNotFoundError
  | .denied => .error .permissionError
  | .ioFail => .error .osError

/-- Substring containment test, modelling `mmap.find(needle) != -1`: does
`needle` occur as a contiguous subsequence of `hay`? -/
def seqContains {α : Type} [BEq α] (hay needle : List α) : Bool :=
  hay.tails.any (fun t => needle.isPrefixOf t)

/-- Embedding of `search_algorithms.mmap_search`.  A missing file is
detected up front and yields `false`; a zero-length file yields `false`
without mapping; otherwise the byte pattern `needle + "\n"` is searched in
the mapped file content, and every mapping error is caught and resolved to
`false`.  File bytes are modelled at code-point level, which coincides with
byte-level search for valid UTF-8 content because UTF-8 is
self-synchronising and the pattern ends in an ASCII newline. -/
def mmap_search (disk : IOResult) (needle : PyStr) : Bool :=
  match disk with
  | .missing => false
  | .denied => false
  | .ioFail => false
  | .ok c => if c.isEmpty then false else seqContains c (needle ++ ['\n'])

/-- The `bisect.bisect_left` loop (`while lo < hi: mid = (lo+hi)//2; ...`),
embedded with a fuel argument bounding the remaining iterations.  Each
iteration shrinks `hi - lo` by at least one, so any fuel of at least the
initial `hi - lo` computes the loop's result. -/
def bisect_left_loop (a : List PyStr) (x : PyStr) : Nat → Nat → Nat → Nat
  | 0, lo, _ => lo
  | fuel + 1, lo, hi =>
    if lo < hi then
      let mid := (lo + hi) / 2
      if a.getD mid [] < x then bisect_left_loop a x fuel (mid + 1) hi
      else bisect_left_loop a x fuel lo mid
    else lo

/-- Embedding of `bisect.bisect_left(lines, needle)` over the whole list. -/
def bisect_left (a : List PyStr) (x : PyStr) : Nat :=
  bisect_left_loop a x a.length 0 a.length

/-- Embedding of `search_algorithms.binary_search_sorted` on its annotated
type `List[str]`: left-bound binary search followed by an equality check at
the found index.  On string inputs the comparisons cannot raise, so the
`try/except` of the source is invisible here; the dynamically-typed
embedding `binary_search_sorted_dyn` below models the exception paths. -/
def binary_search_sorted (lines : List PyStr) (needle : PyStr) : Bool :=
  let i := bisect_left lines needle
  decide (i ≠ lines.length) && (lines.getD i [] == needle)

/-- Embedding of Python `sorted` on a list of strings: stable merge sort by
the lexicographic code-point order. -/
def pySorted (l : List PyStr) : List PyStr :=
  l.mergeSort (fun a b => decide (a ≤ b))

/-- Outcome of the `subprocess.run` call inside `grep_subprocess`. -/
inductive GrepRun where
  | completed
  | timedOut
  | grepMissing
  | runFailed
deriving DecidableEq

/-- Modelled from the spec: the external line-matching utility (`grep -x`)
is not part of this repository; per the spec it performs an exact
whole-line match and signals existence through its exit status.  The model
restricts patterns to literal strings (the regex interpretation of patterns
by the real utility is outside this model). -/
def grepMatches (content : PyStr) (needle : PyStr) : Bool :=
  decide (needle ∈ pyLines content)

/-- Embedding of `search_algorithms.grep_subprocess`: a missing dataset is
detected up front; a timeout, a missing `grep` binary and any other
subprocess failure are caught and resolved to `false`; on a completed run
the result is `returncode == 0`, i.e. whether some whole line matched
(an unreadable file makes `grep` exit nonzero). -/
def grep_subprocess (disk : IOResult) (run : GrepRun) (needle : PyStr) : Bool :=
  match disk, run with
  | .missing, _ => false
  | _, .timedOut => false
  | _, .grepMissing => false
  | _, .runFailed => false
  | .ok c, .completed => grepMatches c needle
  | _, .completed => false

/-- Embedding of `main_server.Config` (values parsed from `config.ini`).
`default_algorithm` and the TLS paths are kept as code-point lists so that
the emptiness test of Python truthiness is directly expressible. -/
structure Config where
  linuxpath : String
  reread_on_query : Bool
  ssl_enabled : Bool
  ssl_certfile : Option PyStr
  ssl_keyfile : Option PyStr
  host : String
  port : Nat
  max_payload : Nat
  default_algorithm : PyStr

/-- The three mutually exclusive optional caches held by a `Searcher`. -/
structure SearcherState where
  cachedSet : Option (List PyStr)
  cachedList : Option (List PyStr)
  cachedSorted : Option (List PyStr)
deriving DecidableEq

/-- The state of a freshly constructed `Searcher` before any preload. -/
def emptyState : SearcherState := ⟨none, none, none⟩

/-- The body of `Searcher._preload` before its `try/except`: build the one
cache matching the configured algorithm, re-raising loader failures. -/
def Searcher.preloadE (cfg : Config) (disk : IOResult) : Except PyExc SearcherState :=
  if cfg.default_algorithm = "set".data then do
    let s ← load_lines_set disk
    pure ⟨some s, none, none⟩
  else if cfg.default_algorithm = "list".data then do
    let l ← load_lines_list disk
    pure ⟨none, some l, none⟩
  else if cfg.default_algorithm = "binary".data then do
    let l ← load_lines_list disk
    pure ⟨none, none, some (pySorted l)⟩
  else do
    let s ← load_lines_set disk
    pure ⟨some s, none, none⟩

/-- The exceptions caught by `Searcher._preload`:
`FileNotFoundError`, `PermissionError`, `OSError`/`IOError`. -/
def preloadCatches : PyExc → Bool
  | .fileNotFoundError => true
  | .permissionError => true
  | .osError => true
  | _ => false

/-- `Searcher._preload` with its `try/except`: a caught failure is only
logged, leaving every cache unset.  Any other exception would escape. -/
def Searcher.preloadSafe (cfg : Config) (disk : IOResult) : Except PyExc SearcherState :=
  match Searcher.preloadE cfg disk with
  | .ok st => .ok st
  | .error e => if preloadCatches e then .ok emptyState else .error e

/-- The state produced by running `_preload` (total form). -/
def Searcher.preload (cfg : Config) (disk : IOResult) : SearcherState :=
  match Searcher.preloadSafe cfg disk with
  | .ok st => st
  | .error _ => emptyState

/-- `Searcher.__init__`: preload only when reread-on-query is off. -/
def Searcher.init (cfg : Config) (disk : IOResult) : SearcherState :=
  if cfg.reread_on_query then emptyState else Searcher.preload cfg disk

/-- The body of `Searcher.search` before its `try/except`: dispatch on the
mode and the configured algorithm (reread), or on which cache is present
(cached mode), re-raising loader failures. -/
def Searcher.searchE (cfg : Config) (st : SearcherState) (disk : IOResult)
    (needle : PyStr) : Except PyExc Bool :=
  if cfg.reread_on_query then
    if cfg.default_algorithm = "set".data then do
      let s ← load_lines_set disk
      pure (decide (needle ∈ s))
    else if cfg.default_algorithm = "list".data then do
      let l ← load_lines_list disk
      pure (decide (needle ∈ l))
    else if cfg.default_algorithm = "mmap".data then
      pure (mmap_search disk needle)
    else if cfg.default_algorithm = "binary".data then do
      let l ← load_lines_list disk
      pure (binary_search_sorted (pySorted l) needle)
    else
      pure (mmap_search disk needle)
  else
    match st.cachedSet with
    | some s => pure (decide (needle ∈ s))
    | none =>
      match st.cachedList with
      | some l => pure (decide (needle ∈ l))
      | none =>
        match st.cachedSorted with
        | some l => pure (binary_search_sorted l needle)
        | none => pure (mmap_search disk needle)

/-- The exceptions caught by `Searcher.search`: `FileNotFoundError`,
`PermissionError`, `OSError`/`IOError`, `TypeError`, `ValueError`. -/
def searchCatches : PyExc → Bool
  | .fileNotFoundError => true
  | .permissionError => true
  | .osError => true
  | .typeError => true
  | .valueError => true
  | _ => false

/-- `Searcher.search` with its `try/except`: every caught failure is logged
and resolved to `false`; any other exception would escape to the caller. -/
def Searcher.search (cfg : Config) (st : SearcherState) (disk : IOResult)
    (needle : PyStr) : Except PyExc Bool :=
  match Searcher.searchE cfg st disk needle with
  | .ok b => .ok b
  | .error e => if searchCatches e then .ok false else .error e

/-- The boolean value `Searcher.search` hands to the connection handler. -/
def searchBool (cfg : Config) (st : SearcherState) (disk : IOResult)
    (needle : PyStr) : Bool :=
  match Searcher.search cfg st disk needle with
  | .ok b => b
  | .error _ => false

/-- True when a call to `search` in this configuration and state touches the
dataset file: always in reread mode, and in cached mode exactly when no
cache was built (the mmap fallback path). -/
def usesDisk (cfg : Config) (st : SearcherState) : Bool :=
  cfg.reread_on_query ||
    (st.cachedSet.isNone && st.cachedList.isNone && st.cachedSorted.isNone)

/-- Embedding of `ssl_utils.wrap_socket_if_needed`: with TLS disabled the
socket is returned untouched; a missing or empty certificate/key path
raises `RuntimeError`; otherwise the context is built and the socket
wrapped, with `loadOutcome` describing the outcome of
`load_cert_chain`/`wrap_socket` (an exception or success). -/
def wrap_socket_if_needed (ssl_enabled : Bool) (certfile keyfile : Option PyStr)
    (loadOutcome : Option PyExc) : Except PyExc Unit :=
  if !ssl_enabled then .ok ()
  else if (certfile.getD []).isEmpty || (keyfile.getD []).isEmpty then
    .error .runtimeError
  else
    match loadOutcome with
    | some e => .error e
    | none => .ok ()

/-- The exceptions caught around the bind/listen/TLS block of
`TCPServer.start`: `PermissionError`, `OSError` (which in Python also
covers `FileNotFoundError`), `ssl.SSLError`. -/
def startCatches : PyExc → Bool
  | .permissionError => true
  | .osError => true
  | .fileNotFoundError => true
  | .sslError => true
  | _ => false

/-- The bind/listen/TLS block of `TCPServer.start` before its `except`
clauses: bind (whose failure is `bindOutcome`), listen, then TLS wrapping
when enabled. -/
def TCPServer.startBody (cfg : Config) (bindOutcome loadOutcome : Option PyExc) :
    Except PyExc Unit := do
  match bindOutcome with
  | some e => throw e
  | none => pure ()
  if cfg.ssl_enabled then
    wrap_socket_if_needed true cfg.ssl_certfile cfg.ssl_keyfile loadOutcome
  else
    pure ()

/-- Embedding of the startup phase of `TCPServer.start`: `.ok true` means
the accept loop is entered, `.ok false` means a caught failure was logged
and `start` returned without accepting, and `.error e` means the exception
escaped `start`. -/
def TCPServer.start (cfg : Config) (bindOutcome loadOutcome : Option PyExc) :
    Except PyExc Bool :=
  match TCPServer.startBody cfg bindOutcome loadOutcome with
  | .ok _ => .ok true
  | .error e => if startCatches e then .ok false else .error e

/-- Strip trailing NUL bytes, modelling `data.rstrip(b'\x00')`. -/
def stripTrailingNul (data : List Nat) : List Nat :=
  (data.reverse.dropWhile (fun b => b == 0)).reverse

/-- Embedding of `utils.safe_recv`: `sock.recv(max_len)` is modelled as
taking at most `maxLen` bytes from the client's pending bytes, and the
result is stripped of trailing NULs. -/
def safe_recv (incoming : List Nat) (maxLen : Nat) : List Nat :=
  stripTrailingNul (incoming.take maxLen)

/-- The replacement character U+FFFD. -/
def repChar : Char := Char.ofNat 0xFFFD

/-- Is this byte a UTF-8 continuation byte? -/
def isCont (b : Nat) : Bool := 0x80 ≤ b && b ≤ 0xBF

/-- UTF-8 decoding with `errors="replace"`, embedded with a fuel argument
(at least the number of remaining bytes).  Each maximal valid subpart of an
invalid sequence is replaced by one U+FFFD, matching CPython; the legality
windows on second bytes exclude overlong encodings and surrogates. -/
def utf8DecodeLoop : Nat → List Nat → List Char
  | 0, _ => []
  | _, [] => []
  | fuel + 1, b :: rest =>
    if b < 0x80 then Char.ofNat b :: utf8DecodeLoop fuel rest
    else if 0xC2 ≤ b && b ≤ 0xDF then
      match rest with
      | c :: rest2 =>
        if isCont c then
          Char.ofNat ((b - 0xC0) * 0x40 + (c - 0x80)) :: utf8DecodeLoop fuel rest2
        else repChar :: utf8DecodeLoop fuel rest
      | [] => [repChar]
    else if 0xE0 ≤ b && b ≤ 0xEF then
      let lo2 := if b = 0xE0 then 0xA0 else 0x80
      let hi2 := if b = 0xED then 0x9F else 0xBF
      match rest with
      | c :: rest2 =>
        if lo2 ≤ c && c ≤ hi2 then
          match rest2 with
          | d :: rest3 =>
            if isCont d then
              Char.ofNat ((b - 0xE0) * 0x1000 + (c - 0x80) * 0x40 + (d - 0x80)) ::
                utf8DecodeLoop fuel rest3
            else repChar :: utf8DecodeLoop fuel rest2
          | [] => [repChar]
        else repChar :: utf8DecodeLoop fuel rest
      | [] => [repChar]
    else if 0xF0 ≤ b && b ≤ 0xF4 then
      let lo2 := if b = 0xF0 then 0x90 else 0x80
      let hi2 := if b = 0xF4 then 0x8F else 0xBF
      match rest with
      | c :: rest2 =>
        if lo2 ≤ c && c ≤ hi2 then
          match rest2 with
          | d :: rest3 =>
            if isCont d then
              match rest3 with
              | e :: rest4 =>
                if isCont e then
                  Char.ofNat ((b - 0xF0) * 0x40000 + (c - 0x80) * 0x1000 +
                      (d - 0x80) * 0x40 + (e - 0x80)) :: utf8DecodeLoop fuel rest4
                else repChar :: utf8DecodeLoop fuel rest3
              | [] => [repChar]
            else repChar :: utf8DecodeLoop fuel rest2
          | [] => [repChar]
        else repChar :: utf8DecodeLoop fuel rest
      | [] => [repChar]
    else repChar :: utf8DecodeLoop fuel rest

/-- Embedding of `raw.decode("utf-8", errors="replace")`: decoding never
fails; invalid sequences become U+FFFD. -/
def utf8DecodeReplace (data : List Nat) : PyStr :=
  utf8DecodeLoop data.length data

/-- Embedding of `str.rstrip("\r\n")`: remove every trailing carriage
return or line feed. -/
def rstripCRLF (s : PyStr) : PyStr :=
  (s.reverse.dropWhile (fun ch => ch == '\r' || ch == '\n')).reverse

/-- True when the string does not end in a carriage return or line feed. -/
def noTrailingCRLF (s : PyStr) : Bool :=
  match s.getLast? with
  | some ch => !(ch == '\r' || ch == '\n')
  | none => true

/-- The query `_handle_client` passes to `Searcher.search`, as a function of
the client's pending bytes and the configured maximum payload:
`safe_recv(conn, max_payload)`, decoded with replacement, with trailing
carriage-return/line-feed stripped. -/
def handlerQuery (incoming : List Nat) (maxPayload : Nat) : PyStr :=
  rstripCRLF (utf8DecodeReplace (safe_recv incoming maxPayload))

/-- The positive response line sent by `_handle_client`. -/
def RESPONSE_EXISTS : PyStr := "STRING EXISTS\n".data

/-- The negative response line sent by `_handle_client`. -/
def RESPONSE_NOT_FOUND : PyStr := "STRING NOT FOUND\n".data

/-- Outcome of the bounded read at the top of `_handle_client`. -/
inductive RecvOutcome where
  | ok (incoming : List Nat)
  | err (e : PyExc)

/-- Embedding of `TCPServer._handle_client`, as the list of response
payloads whose send is attempted on the connection.  A failed receive is
caught by the outer handlers and nothing is sent; otherwise the query is
normalised, the searcher consulted, and exactly one `sendall` of one of the
two literal lines is attempted (a failed send is caught and logged, never
retried). -/
def handle_client (recv : RecvOutcome) (maxPayload : Nat)
    (search : PyStr → Bool) : List PyStr :=
  match recv with
  | .err _ => []
  | .ok incoming =>
    let query := handlerQuery incoming maxPayload
    if search query then [RESPONSE_EXISTS] else [RESPONSE_NOT_FOUND]

/-- The client-side maximum payload constant `DEFAULT_MAX`. -/
def DEFAULT_MAX : Nat := 1024

/-- Length in bytes of the UTF-8 encoding of a string
(`len(s.encode("utf-8"))`). -/
def utf8Len (s : PyStr) : Nat := (s.map Char.utf8Size).sum

/-- The bytes of an ASCII string, for comparing wire payloads. -/
def asciiBytes (s : PyStr) : List Nat := s.map Char.toNat

/-- Embedding of `client.query_string`.  The result pairs the list of
payloads whose send is attempted with the returned triple
`(found, elapsed_ms, raw_response)`.  `connectOk` is the outcome of
`sock.connect`, `reply` the server's raw response bytes and `elapsed` the
measured round-trip time.  A failed connect and an oversized payload
(`ValueError` raised before `sendall`, caught by the `except ValueError`
clause) both yield `(False, 0.0, b"")` with nothing sent. -/
def query_string (s : PyStr) (connectOk : Bool) (reply : List Nat)
    (elapsed : Nat) : List PyStr × (Bool × Nat × List Nat) :=
  if !connectOk then ([], (false, 0, []))
  else if utf8Len s > DEFAULT_MAX then ([], (false, 0, []))
  else ([s], (seqContains reply (asciiBytes "STRING EXISTS".data), elapsed, reply))

/-- Python runtime values reaching `binary_search_sorted` when the caller
ignores the `List[str]` annotation: strings or, e.g., integers. -/
inductive PyVal where
  | str (s : PyStr)
  | int (n : Int)
deriving DecidableEq

/-- Python `<` on runtime values: defined within each of the two types,
raising `TypeError` across them. -/
def PyVal.lt : PyVal → PyVal → Except PyExc Bool
  | .str a, .str b => .ok (decide (a < b))
  | .int a, .int b => .ok (decide (a < b))
  | _, _ => .error .typeError

/-- Python `==` on runtime values: `False` across types, no exception. -/
def PyVal.eqb : PyVal → PyVal → Bool
  | .str a, .str b => a == b
  | .int a, .int b => a == b
  | _, _ => false

/-- Python list indexing: `IndexError` when out of range. -/
def pyIndex (a : List PyVal) (i : Nat) : Except PyExc PyVal :=
  if h : i < a.length then .ok (a.get ⟨i, h⟩) else .error .indexError

/-- The `bisect_left` loop over runtime values, where each comparison may
raise; fuel as in `bisect_left_loop`.  The probed index always lies in
`[lo, hi)`, so the `getD` default is never consulted when `hi ≤ a.length`. -/
def py_bisect_loop (a : List PyVal) (x : PyVal) :
    Nat → Nat → Nat → Except PyExc Nat
  | 0, lo, _ => .ok lo
  | fuel + 1, lo, hi =>
    if lo < hi then
      let mid := (lo + hi) / 2
      match PyVal.lt (a.getD mid (.int 0)) x with
      | .error e => .error e
      | .ok true => py_bisect_loop a x fuel (mid + 1) hi
      | .ok false => py_bisect_loop a x fuel lo mid
    else .ok lo

/-- `bisect.bisect_left` over runtime values. -/
def py_bisect_left (a : List PyVal) (x : PyVal) : Except PyExc Nat :=
  py_bisect_loop a x a.length 0 a.length

/-- The body of `binary_search_sorted` over runtime values, before its
`try/except`: `i = bisect_left(lines, needle)`, then the short-circuit
`i != len(lines) and lines[i] == needle`. -/
def binary_search_sorted_dyn_body (lines : List PyVal) (needle : PyVal) :
    Except PyExc Bool := do
  let i ← py_bisect_left lines needle
  if i = lines.length then pure false
  else do
    let v ← pyIndex lines i
    pure (PyVal.eqb v needle)

/-- `binary_search_sorted` over runtime values with its `try/except`:
`TypeError` and `IndexError` are caught and resolved to `false`; any other
exception would escape. -/
def binary_search_sorted_dyn (lines : List PyVal) (needle : PyVal) :
    Except PyExc Bool :=
  match binary_search_sorted_dyn_body lines needle with
  | .ok b => .ok b
  | .error .typeError => .ok false
  | .error .indexError => .ok false
  | .error e => .error e

/-- The boolean `binary_search_sorted` returns to its caller on runtime
values. -/
def binary_search_sorted_dyn_run (lines : List PyVal) (needle : PyVal) : Bool :=
  match binary_search_sorted_dyn_body lines needle with
  | .ok b => b
  | .error _ => false

/-! Helper lemmas.  The claim theorems at the end of the file are thin
wrappers around these. -/

theorem sorted_getD_le {a : List PyStr} (hs : List.Sorted (· ≤ ·) a) {i j : Nat}
    (hij : i ≤ j) (hj : j < a.length) : a.getD i [] ≤ a.getD j [] := by
  have hi : i < a.length := Nat.lt_of_le_of_lt hij hj
  rw [List.getD_eq_getElem a [] hi, List.getD_eq_getElem a [] hj]
  rcases Nat.eq_or_lt_of_le hij with h | h
  · subst h
    exact le_refl _
  · have hfin : (⟨i, hi⟩ : Fin a.length) < ⟨j, hj⟩ := by simpa using h
    have := @List.Sorted.rel_get_of_lt _ _ _ hs ⟨i, hi⟩ ⟨j, hj⟩ hfin
    simpa [List.get_eq_getElem] using this

theorem bisect_loop_inv (a : List PyStr) (x : PyStr) (hs : List.Sorted (· ≤ ·) a) :
    ∀ (fuel lo hi : Nat), hi - lo ≤ fuel → lo ≤ hi → hi ≤ a.length →
      (∀ i, i < lo → a.getD i [] < x) →
      (∀ i, hi ≤ i → i < a.length → x ≤ a.getD i []) →
      lo ≤ bisect_left_loop a x fuel lo hi ∧
      bisect_left_loop a x fuel lo hi ≤ hi ∧
      (∀ i, i < bisect_left_loop a x fuel lo hi → a.getD i [] < x) ∧
      (∀ i, bisect_left_loop a x fuel lo hi ≤ i → i < a.length →
        x ≤ a.getD i []) := by
  intro fuel
  induction fuel with
  | zero =>
    intro lo hi hfuel hlohi hhi hlow hhigh
    have heq : lo = hi := by omega
    subst heq
    exact ⟨le_rfl, le_rfl, hlow, hhigh⟩
  | succ fuel ih =>
    intro lo hi hfuel hlohi hhi hlow hhigh
    simp only [bisect_left_loop]
    by_cases h : lo < hi
    · rw [if_pos h]
      by_cases hc : a.getD ((lo + hi) / 2) [] < x
      · rw [if_pos hc]
        have hlow2 : ∀ i, i < (lo + hi) / 2 + 1 → a.getD i [] < x := by
          intro i hi2
          rcases Nat.lt_or_ge i lo with h2 | h2
          · exact hlow i h2
          · exact lt_of_le_of_lt (sorted_getD_le hs (by omega) (by omega)) hc
        obtain ⟨hb1, hb2, hb3, hb4⟩ :=
          ih ((lo + hi) / 2 + 1) hi (by omega) (by omega) hhi hlow2 hhigh
        exact ⟨by omega, hb2, hb3, hb4⟩
      · rw [if_neg hc]
        have hxmid : x ≤ a.getD ((lo + hi) / 2) [] := le_of_not_lt hc
        have hhigh2 : ∀ i, (lo + hi) / 2 ≤ i → i < a.length → x ≤ a.getD i [] := by
          intro i hi1 hi2
          exact le_trans hxmid (sorted_getD_le hs hi1 hi2)
        obtain ⟨hb1, hb2, hb3, hb4⟩ :=
          ih lo ((lo + hi) / 2) (by omega) (by omega) (by omega) hlow hhigh2
        exact ⟨hb1, by omega, hb3, hb4⟩
    · rw [if_neg h]
      have heq : lo = hi := by omega
      subst heq
      exact ⟨le_rfl, le_rfl, hlow, hhigh⟩

theorem bisect_left_spec (a : List PyStr) (x : PyStr)
    (hs : List.Sorted (· ≤ ·) a) :
    bisect_left a x ≤ a.length ∧
    (∀ i, i < bisect_left a x → a.getD i [] < x) ∧
    (∀ i, bisect_left a x ≤ i → i < a.length → x ≤ a.getD i []) := by
  have h := bisect_loop_inv a x hs a.length 0 a.length (by omega) (by omega)
    le_rfl (fun i hi => absurd hi (Nat.not_lt_zero i))
    (fun i h1 h2 => absurd (Nat.lt_of_le_of_lt h1 h2) (lt_irrefl _))
  exact ⟨h.2.1, h.2.2.1, h.2.2.2⟩

theorem binary_search_sorted_iff_mem (lines : List PyStr) (q : PyStr)
    (hs : List.Sorted (· ≤ ·) lines) :
    binary_search_sorted lines q = true ↔ q ∈ lines := by
  obtain ⟨hle, hlt, hge⟩ := bisect_left_spec lines q hs
  unfold binary_search_sorted
  constructor
  · intro h
    simp only [Bool.and_eq_true, decide_eq_true_eq, beq_iff_eq] at h
    obtain ⟨hne, heq⟩ := h
    have hilt : bisect_left lines q < lines.length := lt_of_le_of_ne hle hne
    rw [List.getD_eq_getElem _ _ hilt] at heq
    exact heq ▸ List.getElem_mem hilt
  · intro hmem
    obtain ⟨j, hj, hjq⟩ := List.mem_iff_getElem.mp hmem
    have hij : bisect_left lines q ≤ j := by
      by_contra hcon
      push_neg at hcon
      have hlt2 := hlt j hcon
      rw [List.getD_eq_getElem _ _ hj, hjq] at hlt2
      exact lt_irrefl _ hlt2
    have hilt : bisect_left lines q < lines.length := Nat.lt_of_le_of_lt hij hj
    have h1 : q ≤ lines.getD (bisect_left lines q) [] := hge _ le_rfl hilt
    have h2 : lines.getD (bisect_left lines q) [] ≤ lines.getD j [] :=
      sorted_getD_le hs hij hj
    rw [List.getD_eq_getElem _ _ hj, hjq] at h2
    have heq : lines.getD (bisect_left lines q) [] = q := le_antisymm h2 h1
    simp only [Bool.and_eq_true, decide_eq_true_eq, beq_iff_eq]
    exact ⟨by omega, heq⟩

theorem binary_search_sorted_between (lines : List PyStr) (q : PyStr)
    (hs : List.Sorted (· ≤ ·) lines) (k : Nat) (hk : k + 1 < lines.length)
    (h1 : lines.getD k [] < q) (h2 : q < lines.getD (k + 1) []) :
    binary_search_sorted lines q = false := by
  rw [← Bool.not_eq_true, binary_search_sorted_iff_mem lines q hs]
  intro hmem
  obtain ⟨j, hj, hjq⟩ := List.mem_iff_getElem.mp hmem
  rcases le_or_lt j k with hcase | hcase
  · have := sorted_getD_le hs hcase (by omega)
    rw [List.getD_eq_getElem _ _ hj, hjq] at this
    exact absurd (lt_of_le_of_lt this h1) (lt_irrefl q)
  · have := sorted_getD_le hs (Nat.succ_le_of_lt hcase) hj
    rw [List.getD_eq_getElem _ _ hj, hjq] at this
    exact absurd (lt_of_lt_of_le h2 this) (lt_irrefl q)

theorem seqContains_iff {α : Type} [BEq α] [LawfulBEq α] (hay needle : List α) :
    seqContains hay needle = true ↔ needle <:+: hay := by
  unfold seqContains
  rw [List.any_eq_true]
  constructor
  · rintro ⟨t, ht, hp⟩
    rw [List.mem_tails] at ht
    rw [ List.isPrefixOf_iff_prefix] at hp
    exact List.infix_iff_prefix_suffix.mpr ⟨t, hp, ht⟩
  · intro h
    obtain ⟨t, hp, ht⟩ := List.infix_iff_prefix_suffix.mp h
    exact ⟨t, (List.mem_tails t hay).mpr ht, List.isPrefixOf_iff_prefix.mpr hp⟩

theorem mmap_search_ok_iff (c q : PyStr) :
    mmap_search (.ok c) q = true ↔ (q ++ ['\n']) <:+: c := by
  unfold mmap_search
  by_cases hc : c.isEmpty
  · have hnil : c = [] := List.isEmpty_iff.mp hc
    subst hnil
    simp [List.infix_nil]
  · simp only [if_neg hc]
    exact seqContains_iff c (q ++ ['\n'])

theorem pySorted_sorted (l : List PyStr) : List.Sorted (· ≤ ·) (pySorted l) := by
  have h := @List.sorted_mergeSort PyStr (fun a b => decide (a ≤ b))
    (fun a b c hab hbc => by
      simp only [decide_eq_true_eq] at hab hbc ⊢
      exact le_trans hab hbc)
    (fun a b => by
      simpa [Bool.or_eq_true, decide_eq_true_eq] using le_total a b) l
  exact h.imp (fun hab => of_decide_eq_true hab)

theorem pySorted_mem (l : List PyStr) (q : PyStr) : q ∈ pySorted l ↔ q ∈ l :=
  (List.mergeSort_perm l _).mem_iff

theorem binary_search_pySorted_iff (l : List PyStr) (q : PyStr) :
    binary_search_sorted (pySorted l) q = true ↔ q ∈ l := by
  rw [binary_search_sorted_iff_mem _ _ (pySorted_sorted l), pySorted_mem]

/-- A configuration with the `config.ini` fallback values. -/
def baseCfg : Config :=
  { linuxpath := "./200k.txt", reread_on_query := false, ssl_enabled := false,
    ssl_certfile := none, ssl_keyfile := none, host := "0.0.0.0", port := 44445,
    max_payload := 1024, default_algorithm := "set".data }

/-- The base configuration with a chosen algorithm and reread flag. -/
def mkCfg (alg : PyStr) (reread : Bool) : Config :=
  { baseCfg with default_algorithm := alg, reread_on_query := reread }

theorem searchBool_reread_set (st : SearcherState) (c q : PyStr) :
    searchBool (mkCfg "set".data true) st (.ok c) q =
      decide (q ∈ (pyLines c).dedup) := rfl

theorem searchBool_reread_list (st : SearcherState) (c q : PyStr) :
    searchBool (mkCfg "list".data true) st (.ok c) q =
      decide (q ∈ pyLines c) := rfl

theorem searchBool_reread_binary (st : SearcherState) (c q : PyStr) :
    searchBool (mkCfg "binary".data true) st (.ok c) q =
      binary_search_sorted (pySorted (pyLines c)) q := rfl

theorem searchBool_reread_mmap (st : SearcherState) (disk : IOResult) (q : PyStr) :
    searchBool (mkCfg "mmap".data true) st disk q = mmap_search disk q := rfl

theorem searchBool_reread_grep (st : SearcherState) (disk : IOResult) (q : PyStr) :
    searchBool (mkCfg "grep".data true) st disk q = mmap_search disk q := rfl

theorem searchBool_cached_set (cfg : Config) (h : cfg.reread_on_query = false)
    (s : List PyStr) (cl cs : Option (List PyStr)) (disk : IOResult) (q : PyStr) :
    searchBool cfg ⟨some s, cl, cs⟩ disk q = decide (q ∈ s) := by
  simp [searchBool, Searcher.search, Searcher.searchE, h, pure, Except.pure]

theorem searchBool_cached_list (cfg : Config) (h : cfg.reread_on_query = false)
    (l : List PyStr) (cs : Option (List PyStr)) (disk : IOResult) (q : PyStr) :
    searchBool cfg ⟨none, some l, cs⟩ disk q = decide (q ∈ l) := by
  simp [searchBool, Searcher.search, Searcher.searchE, h, pure, Except.pure]

theorem searchBool_cached_sorted (cfg : Config) (h : cfg.reread_on_query = false)
    (l : List PyStr) (disk : IOResult) (q : PyStr) :
    searchBool cfg ⟨none, none, some l⟩ disk q = binary_search_sorted l q := by
  simp [searchBool, Searcher.search, Searcher.searchE, h, pure, Except.pure]

theorem searchBool_cached_fallback (cfg : Config) (h : cfg.reread_on_query = false)
    (disk : IOResult) (q : PyStr) :
    searchBool cfg emptyState disk q = mmap_search disk q := by
  simp [searchBool, Searcher.search, Searcher.searchE, emptyState, h, pure, Except.pure]

theorem preloadSafe_ok (cfg : Config) (disk : IOResult) :
    Searcher.preloadSafe cfg disk = .ok (Searcher.preload cfg disk) := by
  cases disk <;>
    simp [Searcher.preload, Searcher.preloadSafe, Searcher.preloadE,
      load_lines_set, load_lines_list, preloadCatches, pure, Except.pure] <;>
    split_ifs <;> rfl

theorem preload_failure (cfg : Config) (disk : IOResult)
    (hd : disk.isFailure = true) : Searcher.preload cfg disk = emptyState := by
  cases disk
  · simp [IOResult.isFailure] at hd
  all_goals
    simp [Searcher.preload, Searcher.preloadSafe, Searcher.preloadE,
      load_lines_set, load_lines_list, preloadCatches] <;>
    split_ifs <;> rfl

theorem preload_set_ok (c : PyStr) :
    Searcher.preload (mkCfg "set".data false) (.ok c) =
      ⟨some (pyLines c).dedup, none, none⟩ := rfl

theorem preload_list_ok (c : PyStr) :
    Searcher.preload (mkCfg "list".data false) (.ok c) =
      ⟨none, some (pyLines c), none⟩ := rfl

theorem preload_binary_ok (c : PyStr) :
    Searcher.preload (mkCfg "binary".data false) (.ok c) =
      ⟨none, none, some (pySorted (pyLines c))⟩ := rfl

theorem preload_mmap_ok (c : PyStr) :
    Searcher.preload (mkCfg "mmap".data false) (.ok c) =
      ⟨some (pyLines c).dedup, none, none⟩ := rfl

theorem preload_grep_ok (c : PyStr) :
    Searcher.preload (mkCfg "grep".data false) (.ok c) =
      ⟨some (pyLines c).dedup, none, none⟩ := rfl

theorem search_never_raises (cfg : Config) (st : SearcherState) (disk : IOResult)
    (q : PyStr) :
    Searcher.search cfg st disk q = .ok (searchBool cfg st disk q) := by
  rcases st with ⟨cs, cl, cst⟩
  by_cases hr : cfg.reread_on_query
  · cases disk <;>
      simp [searchBool, Searcher.search, Searcher.searchE, hr,
        load_lines_set, load_lines_list, searchCatches, pure, Except.pure] <;>
      split_ifs <;> rfl
  · cases cs <;> cases cl <;> cases cst <;>
      simp [searchBool, Searcher.search, Searcher.searchE, hr, pure, Except.pure]

theorem searchBool_false_of_failure (cfg : Config) (st : SearcherState)
    (disk : IOResult) (q : PyStr) (hd : disk.isFailure = true)
    (hu : usesDisk cfg st = true) : searchBool cfg st disk q = false := by
  rcases st with ⟨cs, cl, cst⟩
  cases disk
  · simp [IOResult.isFailure] at hd
  all_goals by_cases hr : cfg.reread_on_query
  all_goals
    first
    | (simp [searchBool, Searcher.search, Searcher.searchE, hr,
        load_lines_set, load_lines_list, searchCatches, mmap_search,
        pure, Except.pure] <;> split_ifs <;> rfl)
    | (have hnone : cs = none ∧ cl = none ∧ cst = none := by
        simp [usesDisk, hr, Option.isNone_iff_eq_none] at hu
        exact ⟨hu.1.1, hu.1.2, hu.2⟩
       obtain ⟨h1, h2, h3⟩ := hnone
       subst h1; subst h2; subst h3
       simp [searchBool, Searcher.search, Searcher.searchE, hr, mmap_search,
         pure, Except.pure])

theorem startBody_some (cfg : Config) (e : PyExc) (load : Option PyExc) :
    TCPServer.startBody cfg (some e) load = .error e := by
  simp [TCPServer.startBody, bind, Except.bind, throw, throwThe,
    MonadExceptOf.throw]

theorem startBody_none (cfg : Config) (load : Option PyExc) :
    TCPServer.startBody cfg none load =
      if cfg.ssl_enabled then
        wrap_socket_if_needed true cfg.ssl_certfile cfg.ssl_keyfile load
      else pure () := by
  simp [TCPServer.startBody, bind, Except.bind, pure, Except.pure]

theorem start_bind_failure_no_tls (cfg : Config) (e : PyExc)
    (load load2 : Option PyExc) :
    TCPServer.start cfg (some e) load = TCPServer.start cfg (some e) load2 := rfl

theorem start_bind_failure_caught (cfg : Config) (e : PyExc)
    (load : Option PyExc) (he : startCatches e = true) :
    TCPServer.start cfg (some e) load = .ok false := by
  simp [TCPServer.start, startBody_some, he]

theorem start_tls_failure_caught (cfg : Config) (e : PyExc)
    (hssl : cfg.ssl_enabled = true)
    (hcert : (cfg.ssl_certfile.getD []).isEmpty = false)
    (hkey : (cfg.ssl_keyfile.getD []).isEmpty = false)
    (he : startCatches e = true) :
    TCPServer.start cfg none (some e) = .ok false := by
  simp [TCPServer.start, startBody_none, wrap_socket_if_needed,
    hssl, hcert, hkey, he]

theorem start_accept_implies_tls_ok (cfg : Config) (load : Option PyExc)
    (h : TCPServer.start cfg none load = .ok true)
    (hssl : cfg.ssl_enabled = true) :
    wrap_socket_if_needed true cfg.ssl_certfile cfg.ssl_keyfile load = .ok () := by
  rw [TCPServer.start, startBody_none, hssl, if_pos rfl] at h
  cases hw : wrap_socket_if_needed true cfg.ssl_certfile cfg.ssl_keyfile load with
  | ok u =>
    cases u
    rfl
  | error e =>
    rw [hw] at h
    by_cases hc : startCatches e = true <;> simp [hc] at h

theorem head_dropWhile_not {α : Type} (p : α → Bool) (l : List α) :
    ∀ a, (l.dropWhile p).head? = some a → p a = false := by
  induction l with
  | nil =>
    intro a h
    simp [List.dropWhile] at h
  | cons x xs ih =>
    intro a h
    by_cases hp : p x
    · rw [List.dropWhile_cons_of_pos hp] at h
      exact ih a h
    · rw [List.dropWhile_cons_of_neg hp] at h
      simp only [List.head?_cons, Option.some.injEq] at h
      subst h
      exact Bool.of_not_eq_true hp

theorem noTrailingCRLF_rstripCRLF (s : PyStr) :
    noTrailingCRLF (rstripCRLF s) = true := by
  unfold noTrailingCRLF rstripCRLF
  rw [List.getLast?_reverse]
  cases hh : (s.reverse.dropWhile fun ch => ch == '\r' || ch == '\n').head? with
  | none => rfl
  | some a =>
    have hp := head_dropWhile_not _ _ a hh
    simp [hp]

theorem PyVal.lt_error_eq (u v : PyVal) (e : PyExc)
    (h : PyVal.lt u v = .error e) : e = .typeError := by
  cases u <;> cases v <;> simp_all [PyVal.lt]

theorem py_bisect_loop_error_eq (a : List PyVal) (x : PyVal) :
    ∀ (fuel lo hi : Nat) (e : PyExc),
      py_bisect_loop a x fuel lo hi = .error e → e = .typeError := by
  intro fuel
  induction fuel with
  | zero =>
    intro lo hi e h
    simp [py_bisect_loop] at h
  | succ fuel ih =>
    intro lo hi e h
    simp only [py_bisect_loop] at h
    by_cases hlh : lo < hi
    · rw [if_pos hlh] at h
      cases hlt : PyVal.lt (a.getD ((lo + hi) / 2) (PyVal.int 0)) x with
      | error e2 =>
        rw [hlt] at h
        simp only [Except.error.injEq] at h
        exact h ▸ PyVal.lt_error_eq _ _ _ hlt
      | ok b =>
        rw [hlt] at h
        cases b
        · exact ih lo ((lo + hi) / 2) e h
        · exact ih ((lo + hi) / 2 + 1) hi e h
    · rw [if_neg hlh] at h
      simp at h

theorem py_bisect_left_error_eq (a : List PyVal) (x : PyVal) (e : PyExc)
    (h : py_bisect_left a x = .error e) : e = .typeError :=
  py_bisect_loop_error_eq a x a.length 0 a.length e h

theorem dyn_body_error_eq (lines : List PyVal) (needle : PyVal) (e : PyExc)
    (hb : binary_search_sorted_dyn_body lines needle = .error e) :
    e = .typeError ∨ e = .indexError := by
  unfold binary_search_sorted_dyn_body at hb
  simp only [bind, Except.bind] at hb
  cases hi : py_bisect_left lines needle with
  | error e2 =>
    simp only [hi, Except.error.injEq] at hb
    subst hb
    exact Or.inl (py_bisect_left_error_eq lines needle _ hi)
  | ok i =>
    simp only [hi] at hb
    by_cases hil : i = lines.length
    · rw [if_pos hil] at hb
      simp [pure, Except.pure] at hb
    · rw [if_neg hil] at hb
      cases hvi : pyIndex lines i with
      | error e3 =>
        simp only [hvi, Except.error.injEq] at hb
        subst hb
        refine Or.inr ?_
        unfold pyIndex at hvi
        by_cases hlen : i < lines.length
        · rw [dif_pos hlen] at hvi
          exact absurd hvi (by simp)
        · rw [dif_neg hlen] at hvi
          simp only [Except.error.injEq] at hvi
          exact hvi.symm
      | ok v =>
        simp only [hvi] at hb
        simp [pure, Except.pure] at hb

theorem binary_search_dyn_never_raises (lines : List PyVal) (needle : PyVal) :
    binary_search_sorted_dyn lines needle =
      .ok (binary_search_sorted_dyn_run lines needle) := by
  unfold binary_search_sorted_dyn binary_search_sorted_dyn_run
  cases hb : binary_search_sorted_dyn_body lines needle with
  | ok b => rfl
  | error e =>
    rcases dyn_body_error_eq lines needle e hb with h | h <;> subst h <;> rfl

theorem utf8Len_replicate (n : Nat) : utf8Len (List.replicate n 'a') = n := by
  induction n with
  | zero => rfl
  | succ k ih =>
    have h1 : Char.utf8Size 'a' = 1 := by decide
    simp [utf8Len, List.replicate_succ] at ih ⊢
    simp [ih, h1]
    omega

theorem stripTrailingNul_length_le (l : List Nat) :
    (stripTrailingNul l).length ≤ l.length := by
  unfold stripTrailingNul
  calc ((l.reverse.dropWhile fun b => b == 0).reverse).length
      = (l.reverse.dropWhile fun b => b == 0).length := List.length_reverse _
    _ ≤ l.reverse.length := (List.dropWhile_suffix _).sublist.length_le
    _ = l.length := List.length_reverse l

theorem safe_recv_length_le (incoming : List Nat) (mp : Nat) :
    (safe_recv incoming mp).length ≤ mp :=
  le_trans (stripTrailingNul_length_le _) (List.length_take_le mp incoming)

/-- A TLS-enabled configuration with both paths present, for witnesses. -/
def cfgTLS : Config :=
  { baseCfg with
    ssl_enabled := true
    ssl_certfile := some "cert.pem".data
    ssl_keyfile := some "key.pem".data }

/-! Claim theorems. -/

/-- C1, counterexample: with the memory-map strategy in reread mode, a query
that is a proper suffix of a dataset line is reported as present although it
equals no entire line, refuting the claimed equivalence for every strategy. -/
theorem claim_C1_counterexample :
    searchBool (mkCfg "mmap".data true) emptyState (.ok "xbanana\n".data)
      "banana".data = true ∧
    "banana".data ∉ pyLines "xbanana\n".data :=
  ⟨by decide, by decide⟩

/-- C1, amended: for the set, list and binary strategies, in reread mode and
in cache mode with the cache preloaded from the dataset content, search is
exact full-line membership; the mmap strategy in cache mode also preloads a
set and is exact; but the mmap strategy in reread mode returns whether the
byte pattern query-plus-newline occurs anywhere in the file content, which
differs from full-line membership when the final line lacks a trailing
newline or the query is a proper suffix of a line. -/
theorem claim_C1_search_exact_line (c q : PyStr) (st : SearcherState)
    (disk : IOResult) :
    (searchBool (mkCfg "set".data true) st (.ok c) q = true ↔ q ∈ pyLines c) ∧
    (searchBool (mkCfg "list".data true) st (.ok c) q = true ↔ q ∈ pyLines c) ∧
    (searchBool (mkCfg "binary".data true) st (.ok c) q = true ↔ q ∈ pyLines c) ∧
    (searchBool (mkCfg "set".data false)
      (Searcher.init (mkCfg "set".data false) (.ok c)) disk q = true ↔
        q ∈ pyLines c) ∧
    (searchBool (mkCfg "list".data false)
      (Searcher.init (mkCfg "list".data false) (.ok c)) disk q = true ↔
        q ∈ pyLines c) ∧
    (searchBool (mkCfg "binary".data false)
      (Searcher.init (mkCfg "binary".data false) (.ok c)) disk q = true ↔
        q ∈ pyLines c) ∧
    (searchBool (mkCfg "mmap".data false)
      (Searcher.init (mkCfg "mmap".data false) (.ok c)) disk q = true ↔
        q ∈ pyLines c) ∧
    (searchBool (mkCfg "mmap".data true) st (.ok c) q = true ↔
      (q ++ ['\n']) <:+: c) := by
  refine ⟨?_, ?_, ?_, ?_, ?_, ?_, ?_, ?_⟩
  · rw [searchBool_reread_set]
    simp [List.mem_dedup]
  · rw [searchBool_reread_list]
    simp
  · rw [searchBool_reread_binary]
    exact binary_search_pySorted_iff _ _
  · rw [show Searcher.init (mkCfg "set".data false) (.ok c) =
      ⟨some (pyLines c).dedup, none, none⟩ from rfl,
      searchBool_cached_set _ rfl]
    simp [List.mem_dedup]
  · rw [show Searcher.init (mkCfg "list".data false) (.ok c) =
      ⟨none, some (pyLines c), none⟩ from rfl,
      searchBool_cached_list _ rfl]
    simp
  · rw [show Searcher.init (mkCfg "binary".data false) (.ok c) =
      ⟨none, none, some (pySorted (pyLines c))⟩ from rfl,
      searchBool_cached_sorted _ rfl]
    exact binary_search_pySorted_iff _ _
  · rw [show Searcher.init (mkCfg "mmap".data false) (.ok c) =
      ⟨some (pyLines c).dedup, none, none⟩ from rfl,
      searchBool_cached_set _ rfl]
    simp [List.mem_dedup]
  · rw [searchBool_reread_mmap]
    exact mmap_search_ok_iff c q

/-- C2, counterexample: with TLS enabled but the certificate path absent,
`TCPServer.start` raises `RuntimeError` out of `start` instead of aborting
quietly, refuting the claim for the missing-path case. -/
theorem claim_C2_counterexample :
    TCPServer.start
      { baseCfg with ssl_enabled := true, ssl_keyfile := some "key.pem".data }
      none none = .error .runtimeError := rfl

/-- C2, amended: TLS context construction happens after binding (a bind
failure makes the outcome independent of the TLS load outcome) and before
accepting (the accept loop is entered only if wrapping succeeded); a
construction failure raised as `PermissionError`, `OSError` (including
`FileNotFoundError` for an absent certificate file) or `SSLError` aborts
startup without raising out of `start`; but a missing or empty
certificate/key path in the configuration raises `RuntimeError`, which
escapes `start`. -/
theorem claim_C2_tls_after_bind (cfg : Config) (e : PyExc)
    (load load2 : Option PyExc) :
    (TCPServer.start cfg (some e) load = TCPServer.start cfg (some e) load2) ∧
    (startCatches e = true → TCPServer.start cfg (some e) load = .ok false) ∧
    (cfg.ssl_enabled = true → (cfg.ssl_certfile.getD []).isEmpty = false →
      (cfg.ssl_keyfile.getD []).isEmpty = false → startCatches e = true →
      TCPServer.start cfg none (some e) = .ok false) ∧
    (TCPServer.start cfg none load = .ok true → cfg.ssl_enabled = true →
      wrap_socket_if_needed true cfg.ssl_certfile cfg.ssl_keyfile load =
        .ok ()) :=
  ⟨start_bind_failure_no_tls cfg e load load2,
   fun he => start_bind_failure_caught cfg e load he,
   fun h1 h2 h3 h4 => start_tls_failure_caught cfg e h1 h2 h3 h4,
   fun h hs => start_accept_implies_tls_ok cfg load h hs⟩

theorem claim_C2_tls_after_bind_witness :
    TCPServer.start cfgTLS none (some .sslError) = .ok false ∧
    TCPServer.start cfgTLS (some .osError) (some .sslError) = .ok false :=
  ⟨(claim_C2_tls_after_bind cfgTLS .sslError (some .sslError) none).2.2.1
      rfl rfl rfl rfl,
   (claim_C2_tls_after_bind cfgTLS .osError (some .sslError) none).2.1 rfl⟩

/-- C3, counterexample: with the external-process strategy configured, a
query equal to the final (newline-less) line is reported absent by
`Searcher.search` while the external utility itself reports it present,
showing `search` does not resolve the query through the utility. -/
theorem claim_C3_counterexample :
    searchBool (mkCfg "grep".data true) emptyState (.ok "banana".data)
      "banana".data = false ∧
    grep_subprocess (.ok "banana".data) .completed "banana".data = true :=
  ⟨by decide, by decide⟩

/-- C3, amended: `Searcher.search` has no external-process branch: with the
external-process strategy identifier it falls through to `mmap_search` in
reread mode and to a preloaded set in cache mode; the standalone
`grep_subprocess` helper (never invoked by `Searcher.search`) does treat an
expiry of its hard timeout as not found rather than hanging or raising. -/
theorem claim_C3_grep_not_dispatched (st : SearcherState) (disk : IOResult)
    (q c : PyStr) :
    (searchBool (mkCfg "grep".data true) st disk q = mmap_search disk q) ∧
    (searchBool (mkCfg "grep".data false)
      (Searcher.init (mkCfg "grep".data false) (.ok c)) disk q = true ↔
        q ∈ pyLines c) ∧
    (grep_subprocess disk .timedOut q = false) := by
  refine ⟨searchBool_reread_grep st disk q, ?_, ?_⟩
  · rw [show Searcher.init (mkCfg "grep".data false) (.ok c) =
      ⟨some (pyLines c).dedup, none, none⟩ from rfl,
      searchBool_cached_set _ rfl]
    simp [List.mem_dedup]
  · cases disk <;> rfl

/-- C4: on a sorted list of strings, `binary_search_sorted` returns true
exactly when some element equals the query, and returns false for a query
strictly between two adjacent elements. -/
theorem claim_C4_binary_search_correct (lines : List PyStr) (q : PyStr)
    (hs : List.Sorted (· ≤ ·) lines) :
    (binary_search_sorted lines q = true ↔ q ∈ lines) ∧
    (∀ k, k + 1 < lines.length → lines.getD k [] < q →
      q < lines.getD (k + 1) [] → binary_search_sorted lines q = false) :=
  ⟨binary_search_sorted_iff_mem lines q hs,
   fun k hk h1 h2 => binary_search_sorted_between lines q hs k hk h1 h2⟩

theorem claim_C4_binary_search_correct_witness :
    List.Sorted (· ≤ ·) ["apple".data, "cherry".data] ∧
    (binary_search_sorted ["apple".data, "cherry".data] "cherry".data = true ↔
      "cherry".data ∈ ["apple".data, "cherry".data]) :=
  ⟨by decide,
   (claim_C4_binary_search_correct ["apple".data, "cherry".data] "cherry".data
     (by decide)).1⟩

/-- C5: `Searcher.search` never propagates an exception to the connection
handler, and whenever the dataset read fails and the call actually touches
the disk, the result is the boolean false. -/
theorem claim_C5_search_contains_errors (cfg : Config) (st : SearcherState)
    (disk : IOResult) (q : PyStr) :
    Searcher.search cfg st disk q = .ok (searchBool cfg st disk q) ∧
    (disk.isFailure = true → usesDisk cfg st = true →
      searchBool cfg st disk q = false) :=
  ⟨search_never_raises cfg st disk q,
   fun h1 h2 => searchBool_false_of_failure cfg st disk q h1 h2⟩

theorem claim_C5_search_contains_errors_witness :
    Searcher.search (mkCfg "set".data true) emptyState .missing "apple".data =
      .ok (searchBool (mkCfg "set".data true) emptyState .missing "apple".data) ∧
    searchBool (mkCfg "set".data true) emptyState .missing "apple".data = false :=
  ⟨(claim_C5_search_contains_errors (mkCfg "set".data true) emptyState
      .missing "apple".data).1,
   (claim_C5_search_contains_errors (mkCfg "set".data true) emptyState
      .missing "apple".data).2 rfl rfl⟩

/-- C6: on a received request the handler attempts exactly one response,
`STRING EXISTS` with newline when the searcher returned true and
`STRING NOT FOUND` with newline when it returned false, and no payload other
than these two literals is ever sent, on any connection. -/
theorem claim_C6_single_response (incoming : List Nat) (mp : Nat)
    (search : PyStr → Bool) (recv : RecvOutcome) :
    (handle_client (.ok incoming) mp search =
      [if search (handlerQuery incoming mp) then RESPONSE_EXISTS
       else RESPONSE_NOT_FOUND]) ∧
    ((handle_client recv mp search).length ≤ 1) ∧
    (∀ r ∈ handle_client recv mp search,
      r = RESPONSE_EXISTS ∨ r = RESPONSE_NOT_FOUND) := by
  refine ⟨?_, ?_, ?_⟩
  · unfold handle_client
    by_cases h : search (handlerQuery incoming mp) <;> simp [h]
  · cases recv with
    | err e => simp [handle_client]
    | ok inc2 =>
      unfold handle_client
      by_cases h : search (handlerQuery inc2 mp) <;> simp [h]
  · cases recv with
    | err e => simp [handle_client]
    | ok inc2 =>
      unfold handle_client
      by_cases h : search (handlerQuery inc2 mp) <;> simp [h]

theorem claim_C6_single_response_witness :
    handle_client (.ok [112, 101, 97, 114]) 1024 (fun _ => false) =
      [RESPONSE_NOT_FOUND] := by
  have h := (claim_C6_single_response [112, 101, 97, 114] 1024 (fun _ => false)
    (.ok [112, 101, 97, 114])).1
  simpa using h

/-- C7, counterexample: a NUL byte in the interior of the payload survives
into the query handed to the searcher, refuting the data-model clause that
NUL bytes are stripped from the query. -/
theorem claim_C7_counterexample : Char.ofNat 0 ∈ handlerQuery [97, 0, 98] 1024 := by
  decide

/-- C7, amended: the query passed to the searcher equals the payload of the
single bounded read (at most `max_payload` bytes) with trailing NUL bytes
stripped, then decoded with invalid sequences replaced, then with trailing
carriage-return/line-feed characters stripped; only trailing NUL bytes are
stripped, and interior NUL bytes may remain in the query. -/
theorem claim_C7_query_normalization (incoming : List Nat) (mp : Nat) :
    handlerQuery incoming mp =
      rstripCRLF (utf8DecodeReplace (stripTrailingNul (incoming.take mp))) ∧
    (safe_recv incoming mp).length ≤ mp ∧
    noTrailingCRLF (handlerQuery incoming mp) = true :=
  ⟨rfl, safe_recv_length_le incoming mp,
   noTrailingCRLF_rstripCRLF (utf8DecodeReplace (safe_recv incoming mp))⟩

/-- C8, counterexample: after a preload against a missing dataset in cache
mode, restoring the file alone (no restart) already makes a query resolve to
true through the mmap fallback, refuting the claim that queries stay false
until the process is restarted. -/
theorem claim_C8_counterexample :
    Searcher.init (mkCfg "set".data false) .missing = emptyState ∧
    searchBool (mkCfg "set".data false)
      (Searcher.init (mkCfg "set".data false) .missing)
      (.ok "apple\n".data) "apple".data = true :=
  ⟨by decide, by decide⟩

/-- C8, amended: a missing dataset at preload time does not prevent startup
(the preload failure is caught, leaving every cache empty) and queries
resolve to false while the file remains missing; recovery does not require a
restart: cache-mode queries fall back to the disk-reading mmap path, and in
reread mode the next query naturally sees the restored file. -/
theorem claim_C8_missing_preload (cfg : Config) (disk : IOResult) (q c : PyStr) :
    (Searcher.preloadSafe cfg disk = .ok (Searcher.preload cfg disk)) ∧
    (disk.isFailure = true → Searcher.preload cfg disk = emptyState) ∧
    (cfg.reread_on_query = false → searchBool cfg emptyState .missing q = false) ∧
    (searchBool (mkCfg "set".data true) emptyState (.ok c) q = true ↔
      q ∈ pyLines c) := by
  refine ⟨preloadSafe_ok cfg disk, fun hd => preload_failure cfg disk hd,
    fun hr => ?_, ?_⟩
  · rw [searchBool_cached_fallback cfg hr]
    rfl
  · rw [searchBool_reread_set]
    simp [List.mem_dedup]

theorem claim_C8_missing_preload_witness :
    Searcher.preload (mkCfg "set".data false) .missing = emptyState ∧
    searchBool (mkCfg "set".data false) emptyState .missing "apple".data = false :=
  ⟨(claim_C8_missing_preload (mkCfg "set".data false) .missing "apple".data
      "x".data).2.1 rfl,
   (claim_C8_missing_preload (mkCfg "set".data false) .missing "apple".data
      "x".data).2.2.1 rfl⟩

/-- C9: a query whose UTF-8 encoding exceeds the client maximum makes
`query_string` fail before any bytes are sent (the attempted-send list is
empty) and return the triple of false, zero elapsed time and empty response,
with no exception escaping. -/
theorem claim_C9_oversized_payload (s : PyStr) (connectOk : Bool)
    (reply : List Nat) (elapsed : Nat) (h : utf8Len s > DEFAULT_MAX) :
    query_string s connectOk reply elapsed = ([], (false, 0, [])) := by
  unfold query_string
  cases connectOk <;> simp [h]

theorem claim_C9_oversized_payload_witness :
    utf8Len (List.replicate 1025 'a') > DEFAULT_MAX ∧
    query_string (List.replicate 1025 'a') true [] 5 = ([], (false, 0, [])) :=
  ⟨by rw [utf8Len_replicate]; decide,
   claim_C9_oversized_payload (List.replicate 1025 'a') true [] 5
     (by rw [utf8Len_replicate]; decide)⟩

/-- C10: over arbitrary runtime values (unsorted lists and elements not
comparable with the query included), `binary_search_sorted` always returns a
boolean and never lets an exception escape; whenever its body raises
(`TypeError` from a comparison or `IndexError` from indexing), the caught
result is false. -/
theorem claim_C10_binary_search_total (lines : List PyVal) (needle : PyVal) :
    binary_search_sorted_dyn lines needle =
      .ok (binary_search_sorted_dyn_run lines needle) ∧
    (∀ e, binary_search_sorted_dyn_body lines needle = .error e →
      binary_search_sorted_dyn_run lines needle = false) :=
  ⟨binary_search_dyn_never_raises lines needle,
   fun e he => by unfold binary_search_sorted_dyn_run; rw [he]⟩

theorem claim_C10_binary_search_total_witness :
    binary_search_sorted_dyn_run [PyVal.int 1, PyVal.str "b".data]
      (PyVal.str "a".data) = false ∧
    binary_search_sorted_dyn [PyVal.int 1, PyVal.str "b".data]
      (PyVal.str "a".data) = .ok false :=
  ⟨(claim_C10_binary_search_total [PyVal.int 1, PyVal.str "b".data]
      (PyVal.str "a".data)).2 .typeError rfl,
   by
    rw [(claim_C10_binary_search_total [PyVal.int 1, PyVal.str "b".data]
      (PyVal.str "a".data)).1,
      (claim_C10_binary_search_total [PyVal.int 1, PyVal.str "b".data]
      (PyVal.str "a".data)).2 .typeError rfl]⟩
